import Mathlib

/-!
# Verification of the vue3-game-analytics event pipeline

A shallow embedding of the analytics engine of `vue3-game-analytics`:
the circular buffer (`src/utils/circular-buffer`), the sampling helper
(`src/utils/index.ts`), and the Pinia analytics store
(`src/store/analytics-store.ts`).  JavaScript numbers used as counters,
sizes and timestamps are modelled as `Nat`; the uniform random draw of
`Math.random()` and the sampling rate are modelled as rationals; UUIDs
are modelled as opaque `Nat` identifiers supplied by the environment.

The asynchronous `flushEvents` action is split at its single suspension
point (`await fetch`) into a synchronous prefix `flushStart` (the guard
checks, setting `pendingFlush`, taking the snapshot `eventsToSend`) and
a continuation `flushResolve` (the code after the response arrives:
the success branch, the catch branch and the finally block).  All
mutation happens on one logical thread, so every reachable behaviour of
the store is a sequence of these synchronous steps.
-/

namespace GameAnalytics

/-- Error detail carried by an event (the `error` field of
`GameAnalyticsEvent` in `src/types.ts`); `code` holds an
`AnalyticsErrorCode` string. -/
structure ErrInfo where
  message : String
  code : String
  deriving Repr, DecidableEq

/-- `AnalyticsErrorCode.API_SUBMISSION_FAILED` from `src/types.ts`. -/
def API_SUBMISSION_FAILED : String := "API_SUBMISSION_FAILED"

/-- A fully enriched analytics event (`GameAnalyticsEvent` in
`src/types.ts`).  Only the fields the verified code paths read or write
are modelled; the opaque payload fields (`gameState`, `coordinates`,
`metadata`, ...) are irrelevant to every store action and are elided.
`environmentData` is modelled as an opaque `Nat` snapshot token. -/
structure Event where
  id : Nat
  timestamp : Nat
  type : String
  gameId : String
  playId : String
  target : Option String := none
  environmentData : Option Nat := none
  error : Option ErrInfo := none
  deriving Repr, DecidableEq

/-- A partial event as passed to `trackEvent` (`Partial<GameAnalyticsEvent>`).
A field is `none` when the key is absent from the JavaScript object, in
which case the object spread `...event` does not override it. -/
structure PartialEvent where
  id : Option Nat := none
  timestamp : Option Nat := none
  type : Option String := none
  gameId : Option String := none
  playId : Option String := none
  target : Option String := none
  environmentData : Option Nat := none
  error : Option ErrInfo := none
  deriving Repr, DecidableEq

/-- The merged engine configuration (`this.config` after `initialize`
spreads the user options over `DEFAULT_OPTIONS`).  Fields that no
verified code path reads (`flushInterval`, the per-channel tracking
toggles other than `trackErrors`, throttling, logging and IP options)
are elided.  The transformer returns `none` to model a hook that throws. -/
structure Config where
  apiEndpoint : String := ""
  gameId : String := ""
  playId : String := ""
  batchSize : Nat := 50
  maxQueueSize : Nat := 1000
  sampleRate : ℚ := 1
  collectEnvironmentData : Bool := true
  consentRequired : Bool := true
  respectDoNotTrack : Bool := true
  trackErrors : Bool := true
  debug : Bool := false
  eventTransformer : Option (Event → Option Event) := none

/-- User-supplied options for `initialize` (`GameAnalyticsOptions` in
`src/types.ts`): the three required strings plus the optional fields the
verified paths read, `none` meaning the key is absent. -/
structure GameAnalyticsOptions where
  apiEndpoint : String
  gameId : String
  playId : String
  batchSize : Option Nat := none
  maxQueueSize : Option Nat := none
  sampleRate : Option ℚ := none
  collectEnvironmentData : Option Bool := none
  consentRequired : Option Bool := none
  respectDoNotTrack : Option Bool := none
  trackErrors : Option Bool := none
  debug : Option Bool := none
  eventTransformer : Option (Event → Option Event) := none

/-- `{ ...DEFAULT_OPTIONS, ...options }` in `initialize`
(`analytics-store.ts:129`): a supplied key wins field by field, an
absent key falls back to the default from `DEFAULT_OPTIONS`. -/
def mergeOptions (o : GameAnalyticsOptions) : Config :=
  { apiEndpoint := o.apiEndpoint
    gameId := o.gameId
    playId := o.playId
    batchSize := o.batchSize.getD 50
    maxQueueSize := o.maxQueueSize.getD 1000
    sampleRate := o.sampleRate.getD 1
    collectEnvironmentData := o.collectEnvironmentData.getD true
    consentRequired := o.consentRequired.getD true
    respectDoNotTrack := o.respectDoNotTrack.getD true
    trackErrors := o.trackErrors.getD true
    debug := o.debug.getD false
    eventTransformer := o.eventTransformer }

/-- `shouldSampleEvent` from `src/utils/index.ts:130`:
`if (rate >= 1) return true; if (rate <= 0) return false;
return Math.random() <= rate;` with the draw made explicit. -/
def shouldSampleEvent (rate draw : ℚ) : Bool :=
  if 1 ≤ rate then true
  else if rate ≤ 0 then false
  else draw ≤ rate

/-- JavaScript `a || b` on strings: the empty string is falsy, an absent
key is falsy. -/
def jsOrStr (a : Option String) (b : String) : String :=
  match a with
  | none => b
  | some s => if s = "" then b else s

/-- The object literal of `trackEvent` (`analytics-store.ts:237`) before
the trailing spread: `id: generateUUID(), timestamp: Date.now(),
type: event.type || 'custom', gameId: event.gameId || this.config.gameId,
playId: event.playId || this.config.playId`. -/
def enrichBase (cfg : Config) (p : PartialEvent) (freshId now : Nat) : Event :=
  { id := freshId
    timestamp := now
    type := jsOrStr p.type "custom"
    gameId := jsOrStr p.gameId cfg.gameId
    playId := jsOrStr p.playId cfg.playId }

/-- The trailing `...event` spread of the same literal: every key present
in the partial overrides the base field just computed. -/
def spreadPartial (p : PartialEvent) (base : Event) : Event :=
  { id := p.id.getD base.id
    timestamp := p.timestamp.getD base.timestamp
    type := p.type.getD base.type
    gameId := p.gameId.getD base.gameId
    playId := p.playId.getD base.playId
    target := match p.target with | some t => some t | none => base.target
    environmentData :=
      match p.environmentData with | some e => some e | none => base.environmentData
    error := match p.error with | some e => some e | none => base.error }

/-- `const fullEvent = { id: ..., ..., ...event }` in `trackEvent`. -/
def enrichEvent (cfg : Config) (p : PartialEvent) (freshId now : Nat) : Event :=
  spreadPartial p (enrichBase cfg p freshId now)

/-- The store state (`GameAnalyticsState` in `src/types.ts`), flattened,
together with the two `localStorage` cells the store reads and writes
(`vue3-game-analytics-events`, `vue3-game-analytics-config`): the engine
is the sole writer of those keys, so they are part of the verified
state.  `storageConfigPresent` records only whether the config key is
set, since the store never reads its value. -/
structure StoreState where
  events : List Event
  config : Config
  isEnabled : Bool
  isDebugMode : Bool
  hasConsent : Bool
  bufferCapacity : Nat
  bufferSize : Nat
  overflowCount : Nat
  isOnline : Bool
  lastConnectionType : String
  pendingFlush : Bool
  failedSubmissions : Nat
  lastFlushTime : Option Nat
  storageEvents : Option (List Event)
  storageConfigPresent : Bool

/-- The initial Pinia state literal (`analytics-store.ts:55`): empty
queue, `DEFAULT_OPTIONS` spread over empty session strings, tracking
disabled, no consent, online.  The two storage cells are inputs of the
host page, so `initialState` is parametrised by them. -/
def initialState (storedEv : Option (List Event)) (storedCfg : Bool) : StoreState :=
  { events := []
    config := {}
    isEnabled := false
    isDebugMode := false
    hasConsent := false
    bufferCapacity := 1000
    bufferSize := 0
    overflowCount := 0
    isOnline := true
    lastConnectionType := "unknown"
    pendingFlush := false
    failedSubmissions := 0
    lastFlushTime := none
    storageEvents := storedEv
    storageConfigPresent := storedCfg }

/-- External nondeterminism consumed by one `trackEvent` call: the
browser Do-Not-Track signal read by `isTrackingAllowed`, the
`Math.random()` draw, the fresh UUID from `generateUUID()`, `Date.now()`,
the `getEnvironmentData()` snapshot, and the message of the error being
reported when the call originates in the flush catch block. -/
structure ExtInput where
  dnt : Bool
  draw : ℚ
  freshId : Nat
  now : Nat
  envData : Nat
  errMsg : String
  deriving Repr, DecidableEq

/-- The `isTrackingAllowed` getter (`analytics-store.ts:85`): enabled,
consent when required, and the Do-Not-Track browser signal when
respected. -/
def isTrackingAllowed (s : StoreState) (dnt : Bool) : Bool :=
  if !s.isEnabled then false
  else if s.config.consentRequired && !s.hasConsent then false
  else if s.config.respectDoNotTrack && dnt then false
  else true

/-- The `eventCount` getter (`analytics-store.ts:109`). -/
def eventCount (s : StoreState) : Nat := s.events.length

/-- The queue-management core of `addEventToQueue`
(`analytics-store.ts:270-285`): push, mirror the length into
`bufferInfo.size`, and when `maxQueueSize` is truthy and exceeded keep
only the newest `maxQueueSize` events (`slice(-maxQueueSize)`) and
increment `bufferInfo.overflowCount`. -/
def addEventToQueue (s : StoreState) (e : Event) : StoreState :=
  let s1 := { s with events := s.events ++ [e], bufferSize := (s.events ++ [e]).length }
  if s1.config.maxQueueSize ≠ 0 ∧ s1.config.maxQueueSize < s1.events.length then
    { s1 with
      events := s1.events.drop (s1.events.length - s1.config.maxQueueSize)
      bufferSize := s1.config.maxQueueSize
      overflowCount := s1.overflowCount + 1 }
  else s1

/-- The auto-flush condition checked at the end of `addEventToQueue`
(`analytics-store.ts:288`): `config.batchSize && events.length >= batchSize`
with JavaScript truthiness on `batchSize`. -/
def batchFlushDue (s : StoreState) : Bool :=
  s.config.batchSize ≠ 0 ∧ s.config.batchSize ≤ s.events.length

/-- The synchronous prefix of `flushEvents` (`analytics-store.ts:312-340`),
up to the `await fetch` suspension point: the three no-op guards (empty
queue, flush already pending, offline), then `pendingFlush = true` and
the snapshot `eventsToSend = [...this.events]`.  Returns the new state
and `some snapshot` when a network submission was started, `none` when
the call was a no-op. -/
def flushStart (s : StoreState) : StoreState × Option (List Event) :=
  if s.events.length = 0 ∨ s.pendingFlush then (s, none)
  else if !s.isOnline then (s, none)
  else ({ s with pendingFlush := true }, some s.events)

/-- `addEventToQueue` including its tail call to `flushEvents`
(`analytics-store.ts:288-290`), of which only the synchronous prefix
runs before `addEventToQueue` returns.  (The deferred
`runWhenIdle(saveEventsToStorage)` persistence is a separate later step,
`saveEventsToStorage`.) -/
def addEventToQueueF (s : StoreState) (e : Event) : StoreState × Option (List Event) :=
  let s1 := addEventToQueue s e
  if batchFlushDue s1 then flushStart s1 else (s1, none)

/-- The environment-snapshot step of `trackEvent`
(`analytics-store.ts:247-249`): attach `getEnvironmentData()` when
configured and the event does not already carry a snapshot. -/
def applyEnvData (cfg : Config) (e : Event) (envData : Nat) : Event :=
  if cfg.collectEnvironmentData ∧ e.environmentData = none then
    { e with environmentData := some envData }
  else e

/-- The `trackEvent` action (`analytics-store.ts:221-263`): the
deterministic gate, then the sampling draw (only consulted when
`sampleRate < 1`; the `!== undefined` check is vacuous after the
defaults merge), then enrichment, the environment snapshot when
configured and absent from the partial, the optional transformer hook
with fallback on throw, and the push.  Returns the new state and the
snapshot of a flush the push may have auto-triggered. -/
def trackEvent (s : StoreState) (p : PartialEvent) (inp : ExtInput) :
    StoreState × Option (List Event) :=
  if !(isTrackingAllowed s inp.dnt) then (s, none)
  else if s.config.sampleRate < 1 ∧ !(shouldSampleEvent s.config.sampleRate inp.draw) then
    (s, none)
  else
    let fe := applyEnvData s.config (enrichEvent s.config p inp.freshId inp.now) inp.envData
    match s.config.eventTransformer with
    | some f =>
        match f fe with
        | some t => addEventToQueueF s t
        | none => addEventToQueueF s fe
    | none => addEventToQueueF s fe

/-- The synthetic partial event enqueued by the catch block of
`flushEvents` (`analytics-store.ts:361-368`). -/
def flushErrorPartial (msg : String) : PartialEvent :=
  { type := some "error"
    target := some "analytics"
    error := some { message := msg, code := API_SUBMISSION_FAILED } }

/-- The continuation of `flushEvents` after the network call resolves
(`analytics-store.ts:342-372`), `ok` being "transport succeeded and the
response status was 2xx".  Success: drop from the live queue exactly the
events whose `id` occurs in the snapshot, mirror the size, record
`lastFlushTime`, clear the persisted snapshot.  Failure: increment
`failedSubmissions` and, when `trackErrors` is set, route a synthetic
error event through the full `trackEvent` pipeline (its nested
auto-flush is a guaranteed no-op since `pendingFlush` is still `true`).
Finally block: `pendingFlush = false` on every path. -/
def flushResolve (s : StoreState) (eventsToSend : List Event) (ok : Bool)
    (inp : ExtInput) (now : Nat) : StoreState :=
  let s1 :=
    if ok then
      let remaining := s.events.filter (fun e => !(eventsToSend.any (fun se => se.id == e.id)))
      { s with events := remaining, bufferSize := remaining.length,
               lastFlushTime := some now, storageEvents := none }
    else
      let s2 := { s with failedSubmissions := s.failedSubmissions + 1 }
      if s2.config.trackErrors then (trackEvent s2 (flushErrorPartial inp.errMsg) inp).1
      else s2
  { s1 with pendingFlush := false }

/-- The `initialize` action (`analytics-store.ts:127-171`): merge the
options over the defaults, set debug mode, restore any persisted queue
snapshot (mirroring its length into `bufferInfo.size`), enable tracking,
and read `navigator.onLine`.  The recurring flush timer and the
`beforeunload` hook only schedule later calls of the actions modelled
here. -/
def initializeStore (s : StoreState) (opts : GameAnalyticsOptions) (online : Bool) :
    StoreState :=
  let cfg := mergeOptions opts
  let s1 := { s with config := cfg, isDebugMode := cfg.debug }
  let s2 :=
    match s.storageEvents with
    | some evs => { s1 with events := evs, bufferSize := evs.length }
    | none => s1
  { s2 with isEnabled := true, isOnline := online }

/-- The `clearEvents` action (`analytics-store.ts:378`). -/
def clearEvents (s : StoreState) : StoreState :=
  { s with events := [], bufferSize := 0 }

/-- The `setConsent` action (`analytics-store.ts:177-187`): set the
flag; on revocation clear the queue and remove both persisted keys. -/
def setConsent (s : StoreState) (hasConsent : Bool) : StoreState :=
  let s1 := { s with hasConsent := hasConsent }
  if !hasConsent then
    { clearEvents s1 with storageEvents := none, storageConfigPresent := false }
  else s1

/-- The `filterEvents` action (`analytics-store.ts:388-394`). -/
def filterEvents (s : StoreState) (f : Event → Bool) : StoreState :=
  { s with events := s.events.filter f, bufferSize := (s.events.filter f).length }

/-- The deferred `saveEventsToStorage` action (`analytics-store.ts:301`):
persist the queue when non-empty. -/
def saveEventsToStorage (s : StoreState) : StoreState :=
  if s.events.length ≠ 0 then { s with storageEvents := some s.events } else s

/-! ## The standalone circular buffer (`src/utils/circular-buffer`) -/

/-- The `overflowStrategy` option of `CircularBufferOptions`. -/
inductive OverflowStrategy where
  | discardOldest
  | discardNewest
  | throwError
  deriving Repr, DecidableEq

/-- The private state of `CircularBuffer<T>`: the fixed backing array
(entries `none` where the JavaScript array holds `null`), the `head`,
`tail` and `size` pointers, the immutable `capacity` and strategy, and
the `overflowCount` diagnostic counter. -/
structure CBState (T : Type) where
  buffer : List (Option T)
  head : Nat
  tail : Nat
  size : Nat
  capacity : Nat
  overflowStrategy : OverflowStrategy
  overflowCount : Nat
  deriving Repr, DecidableEq

/-- The `CircularBuffer` constructor: a `capacity`-sized array of
`null`s, all pointers zero. -/
def mkCB (T : Type) (capacity : Nat) (strategy : OverflowStrategy) : CBState T :=
  { buffer := List.replicate capacity none
    head := 0
    tail := 0
    size := 0
    capacity := capacity
    overflowStrategy := strategy
    overflowCount := 0 }

/-- `dequeue()` (`circular-buffer:195-205`): `null` on an empty buffer,
otherwise clear the head slot, advance `head` modulo the capacity,
decrement `size`. -/
def dequeueCB {T : Type} (cb : CBState T) : CBState T × Option T :=
  if cb.size = 0 then (cb, none)
  else
    ({ cb with buffer := cb.buffer.set cb.head none
               head := (cb.head + 1) % cb.capacity
               size := cb.size - 1 },
     cb.buffer.getD cb.head none)

/-- The unguarded tail of `push` (`circular-buffer:183-188`): write the
item at `tail`, advance `tail` modulo the capacity, increment `size`. -/
def insertAtTail {T : Type} (cb : CBState T) (item : T) : CBState T :=
  { cb with buffer := cb.buffer.set cb.tail (some item)
            tail := (cb.tail + 1) % cb.capacity
            size := cb.size + 1 }

/-- `push(item)` (`circular-buffer:166-189`).  The result pairs the
buffer state after the call with `Except.ok admitted` for a normal
return and `Except.error` for the throw of the `'error'` strategy;
the state component witnesses what the call mutated. -/
def pushCB {T : Type} (cb : CBState T) (item : T) : CBState T × Except String Bool :=
  if cb.size = cb.capacity then
    match cb.overflowStrategy with
    | .discardOldest => (insertAtTail (dequeueCB cb).1 item, .ok true)
    | .discardNewest => ({ cb with overflowCount := cb.overflowCount + 1 }, .ok false)
    | .throwError => (cb, .error "CircularBuffer overflow: buffer is full")
  else (insertAtTail cb item, .ok true)

/-- The collection loop of `getItems()` (`circular-buffer:215-222`):
walk `count` slots starting at `current`, keeping non-`null` entries. -/
def getItemsAux {T : Type} (buf : List (Option T)) (capacity : Nat) :
    Nat → Nat → List T
  | _, 0 => []
  | current, Nat.succ k =>
      match buf.getD current none with
      | some x => x :: getItemsAux buf capacity ((current + 1) % capacity) k
      | none => getItemsAux buf capacity ((current + 1) % capacity) k

/-- `getItems()` (`circular-buffer:211-224`). -/
def getItemsCB {T : Type} (cb : CBState T) : List T :=
  if cb.size = 0 then [] else getItemsAux cb.buffer cb.capacity cb.head cb.size

/-- `clear()` (`circular-buffer:239-244`): refill with `null`s, reset
the pointers; `overflowCount` is deliberately not reset. -/
def clearCB {T : Type} (cb : CBState T) : CBState T :=
  { cb with buffer := List.replicate cb.buffer.length none
            head := 0, tail := 0, size := 0 }

/-- `drain()` (`circular-buffer:230-234`). -/
def drainCB {T : Type} (cb : CBState T) : CBState T × List T :=
  (clearCB cb, getItemsCB cb)

/-- Push a whole list in order, keeping only the states (the
`Except` results discarded, as a caller looping over `push` would). -/
def pushListCB {T : Type} (cb : CBState T) (xs : List T) : CBState T :=
  xs.foldl (fun c x => (pushCB c x).1) cb

/-- The list-level meaning of one `discard-oldest` push: at capacity the
oldest element is dropped, then the item is appended. -/
def modelPushDO {T : Type} (c : Nat) (l : List T) (x : T) : List T :=
  if l.length = c then l.drop 1 ++ [x] else l ++ [x]

/-- The refinement relation between a buffer state and the list of its
live elements, oldest first: the backing array has the declared length,
the pointers are in range and consistent, and slot `(head + i) % capacity`
holds the `i`-th element. -/
def cbRep {T : Type} (cb : CBState T) (l : List T) : Prop :=
  cb.buffer.length = cb.capacity ∧
  cb.head < cb.capacity ∧
  cb.size = l.length ∧
  cb.size ≤ cb.capacity ∧
  cb.tail = (cb.head + cb.size) % cb.capacity ∧
  ∀ i : Nat, i < l.length →
    cb.buffer.getD ((cb.head + i) % cb.capacity) none = l[i]?

/-! ## Derived state predicates and concrete scenario states -/

/-- The implicit store invariant: `bufferInfo.size` mirrors
`events.length`. -/
def sizeInv (s : StoreState) : Prop := s.bufferSize = s.events.length

/-- A minimal options object: required fields only, every optional key
absent, so the defaults apply. -/
def demoOptions : GameAnalyticsOptions :=
  { apiEndpoint := "https://api.example.test/events"
    gameId := "g1"
    playId := "p1" }

/-- Deterministic external inputs for the `i`-th tracked event of the
concrete scenarios: no Do-Not-Track signal, a mid-range draw, UUID `i`,
capture instant `100 + i`. -/
def demoInput (i : Nat) : ExtInput :=
  { dnt := false, draw := 1/2, freshId := i, now := 100 + i,
    envData := 0, errMsg := "boom" }

/-- The event the pipeline is expected to enqueue for an empty partial
under `demoOptions` and `demoInput i`. -/
def demoEvent (i : Nat) : Event :=
  { id := i, timestamp := 100 + i, type := "custom",
    gameId := "g1", playId := "p1", environmentData := some 0 }

/-- Scenario base state: fresh page (empty storage), `initialize`, then
consent granted. -/
def demoReady : StoreState :=
  setConsent (initializeStore (initialState none false) demoOptions true) true

/-- Scenario state after tracking three events. -/
def demoAfter3 : StoreState :=
  (trackEvent ((trackEvent ((trackEvent demoReady {} (demoInput 1)).1)
    {} (demoInput 2)).1) {} (demoInput 3)).1

/-- Scenario: the flush begun on `demoAfter3` (its snapshot is the three
queued events). -/
def demoFlush : StoreState × Option (List Event) := flushStart demoAfter3

/-- Scenario state after a fourth event is tracked while the flush's
network call is still outstanding. -/
def demoAfter4 : StoreState :=
  (trackEvent demoFlush.1 {} (demoInput 4)).1

/-- Scenario final state: the outstanding network call resolves
successfully at instant `999`. -/
def demoFinal : StoreState :=
  flushResolve demoAfter4 (demoFlush.2.getD []) true (demoInput 9) 999

/-- A store mid-flush whose queue of one event is already at a
`maxQueueSize` of 1, with error tracking on: the state exercising the
corner where the catch block's synthetic event evicts a queued event. -/
def tinyState : StoreState :=
  { events := [demoEvent 1]
    config := { gameId := "g1", playId := "p1", maxQueueSize := 1 }
    isEnabled := true
    isDebugMode := false
    hasConsent := true
    bufferCapacity := 1000
    bufferSize := 1
    overflowCount := 0
    isOnline := true
    lastConnectionType := "unknown"
    pendingFlush := true
    failedSubmissions := 0
    lastFlushTime := none
    storageEvents := some [demoEvent 1]
    storageConfigPresent := false }

/-- An enabled consented store with an empty queue and
`maxQueueSize = c`, for the engine-level trimming statements. -/
def mkEngineState (c : Nat) : StoreState :=
  { events := []
    config := { gameId := "g1", playId := "p1", maxQueueSize := c }
    isEnabled := true
    isDebugMode := false
    hasConsent := true
    bufferCapacity := 1000
    bufferSize := 0
    overflowCount := 0
    isOnline := true
    lastConnectionType := "unknown"
    pendingFlush := false
    failedSubmissions := 0
    lastFlushTime := none
    storageEvents := none
    storageConfigPresent := false }

/-- A partial event that already carries an `id`, exercising the
trailing-spread override in enrichment. -/
def idPartial : PartialEvent := { id := some 42 }

/-! ## Claim C5 — sampling decision -/

/-- C5 counterexample: the spec requires a strict `draw < rate`
comparison, but on the boundary draw `1/2` at rate `1/2` the code
(`Math.random() <= rate`) admits even though `draw < rate` fails. -/
theorem sampling_boundary_cex :
    shouldSampleEvent (1/2) (1/2) = true ∧ ¬ ((1 : ℚ)/2 < 1/2) := by
  refine ⟨?_, lt_irrefl _⟩
  norm_num [shouldSampleEvent]

/-- C5 (amended): a rate `≥ 1` always admits, a rate `≤ 0` always
rejects, and for `0 < rate < 1` the decision admits exactly when the
uniform draw is less than **or equal to** the rate. -/
theorem shouldSampleEvent_spec :
    (∀ rate draw : ℚ, 1 ≤ rate → shouldSampleEvent rate draw = true) ∧
    (∀ rate draw : ℚ, rate ≤ 0 → shouldSampleEvent rate draw = false) ∧
    (∀ rate draw : ℚ, 0 < rate → rate < 1 →
      (shouldSampleEvent rate draw = true ↔ draw ≤ rate)) := by
  refine ⟨?_, ?_, ?_⟩
  · intro rate draw h
    simp [shouldSampleEvent, h]
  · intro rate draw h
    have h1 : ¬ (1 : ℚ) ≤ rate := by linarith
    simp [shouldSampleEvent, h1, h]
  · intro rate draw h0 h1
    have hn1 : ¬ (1 : ℚ) ≤ rate := by linarith
    have hn0 : ¬ rate ≤ 0 := by linarith
    simp [shouldSampleEvent, hn1, hn0]

/-- C5 witness: the three branches of `shouldSampleEvent_spec` at
concrete rates and draws. -/
theorem shouldSampleEvent_spec_witness :
    shouldSampleEvent 2 (1/2) = true ∧
    shouldSampleEvent (-1) (1/2) = false ∧
    (shouldSampleEvent (1/2) (1/4) = true ↔ (1 : ℚ)/4 ≤ 1/2) :=
  ⟨shouldSampleEvent_spec.1 2 (1/2) (by norm_num),
   shouldSampleEvent_spec.2.1 (-1) (1/2) (by norm_num),
   shouldSampleEvent_spec.2.2 (1/2) (1/4) (by norm_num) (by norm_num)⟩

/-! ## Claim C7 — enrichment -/

/-- C7 counterexample: the trailing `...event` spread runs after the
fresh-`id` field, so a partial that carries `id = 42` keeps it — the
enriched event's `id` is not the fresh value `7` assigned at enrichment
time. -/
theorem enrich_id_override_cex :
    (enrichEvent {} idPartial 7 100).id = 42 ∧ (enrichEvent {} idPartial 7 100).id ≠ 7 := by
  constructor <;> decide

/-- C7 (amended): enrichment gives the event the fresh id only when the
partial carries none (otherwise the spread keeps the partial's id), the
partial's `type` or `"custom"` when absent, and the partial's session
identifiers when present, else the configured defaults. -/
theorem enrich_fields_spec (cfg : Config) (p : PartialEvent) (freshId now : Nat) :
    (enrichEvent cfg p freshId now).id = p.id.getD freshId ∧
    (p.id = none → (enrichEvent cfg p freshId now).id = freshId) ∧
    (enrichEvent cfg p freshId now).type = p.type.getD "custom" ∧
    (enrichEvent cfg p freshId now).gameId = p.gameId.getD cfg.gameId ∧
    (enrichEvent cfg p freshId now).playId = p.playId.getD cfg.playId := by
  refine ⟨?_, ?_, ?_, ?_, ?_⟩
  · cases hp : p.id <;> simp [enrichEvent, spreadPartial, enrichBase, hp]
  · intro hp
    simp [enrichEvent, spreadPartial, enrichBase, hp]
  · cases hp : p.type <;> simp [enrichEvent, spreadPartial, enrichBase, jsOrStr, hp]
  · cases hp : p.gameId <;> simp [enrichEvent, spreadPartial, enrichBase, jsOrStr, hp]
  · cases hp : p.playId <;> simp [enrichEvent, spreadPartial, enrichBase, jsOrStr, hp]

/-- C7 witness: an empty partial under the default configuration gets
the fresh id. -/
theorem enrich_fields_spec_witness :
    ({} : PartialEvent).id = none ∧ (enrichEvent {} {} 7 100).id = 7 :=
  ⟨rfl, (enrich_fields_spec {} {} 7 100).2.1 rfl⟩

/-! ## Claim C8 — consent revocation -/

/-- C8: revoking consent clears the queue (`eventCount = 0`,
`bufferInfo.size = 0`) and erases both persisted storage keys, for every
starting state — destructive right-to-erasure, not a mere gate. -/
theorem consent_revocation_erases (s : StoreState) :
    (setConsent s false).events = [] ∧
    eventCount (setConsent s false) = 0 ∧
    (setConsent s false).bufferSize = 0 ∧
    (setConsent s false).storageEvents = none ∧
    (setConsent s false).storageConfigPresent = false ∧
    (setConsent s false).hasConsent = false := by
  simp [setConsent, clearEvents, eventCount]

/-! ## Claim C9 — `Reject` policy atomicity -/

/-- C9: a `push` on a full buffer under the `'error'` strategy throws
and returns the buffer state entirely unchanged — contents, `size`,
`head`, `tail` and `overflowCount` are all those of the pre-push
state. -/
theorem reject_policy_atomic {T : Type} (cb : CBState T) (x : T)
    (hfull : cb.size = cb.capacity) (hstrat : cb.overflowStrategy = .throwError) :
    (pushCB cb x).1 = cb ∧
    (pushCB cb x).2 = Except.error "CircularBuffer overflow: buffer is full" := by
  constructor <;> simp [pushCB, hfull, hstrat]

/-- C9 witness: a concrete full two-slot buffer rejects its third
push unchanged. -/
theorem reject_policy_atomic_witness :
    (pushCB (pushListCB (mkCB Nat 2 .throwError) [1, 2]) 3).1 =
      pushListCB (mkCB Nat 2 .throwError) [1, 2] ∧
    (pushCB (pushListCB (mkCB Nat 2 .throwError) [1, 2]) 3).2 =
      Except.error "CircularBuffer overflow: buffer is full" :=
  reject_policy_atomic (pushListCB (mkCB Nat 2 .throwError) [1, 2]) 3 (by decide) (by decide)

/-! ## Claim C6 — deterministic gate before probabilistic sampling -/

/-- C6: the gating checks of `trackEvent` are evaluated before the
sampling draw, so whenever `isTrackingAllowed` rejects, the call is a
no-op with an outcome independent of the random draw: two runs
differing only in the draw coincide, and both leave the state
unchanged. -/
theorem gating_before_sampling (s : StoreState) (p : PartialEvent) (inp : ExtInput)
    (h : isTrackingAllowed s inp.dnt = false) :
    (∀ d : ℚ, trackEvent s p { inp with draw := d } = (s, none)) ∧
    (∀ d d' : ℚ,
      trackEvent s p { inp with draw := d } = trackEvent s p { inp with draw := d' }) := by
  have key : ∀ d : ℚ, trackEvent s p { inp with draw := d } = (s, none) := by
    intro d
    unfold trackEvent
    simp [h]
  exact ⟨key, fun d d' => (key d).trans (key d').symm⟩

/-- C6 witness: on the fresh (still disabled) store the gate rejects and
the call is draw-independent. -/
theorem gating_before_sampling_witness :
    trackEvent (initialState none false) {} { demoInput 1 with draw := 7/8 } =
      (initialState none false, none) :=
  (gating_before_sampling (initialState none false) {} (demoInput 1) (by decide)).1 (7/8)

/-! ## Shared helper lemmas about the store actions -/

/-- `flushStart` either no-ops or only raises the `pendingFlush` flag. -/
theorem flushStart_fst (s : StoreState) :
    (flushStart s).1 = s ∨ (flushStart s).1 = { s with pendingFlush := true } := by
  unfold flushStart
  split
  · exact Or.inl rfl
  · split
    · exact Or.inl rfl
    · exact Or.inr rfl

/-- Unfolding equation for `addEventToQueue` with the intermediate
`let` state flattened away. -/
theorem addEventToQueue_eq (s : StoreState) (e : Event) :
    addEventToQueue s e =
      if s.config.maxQueueSize ≠ 0 ∧ s.config.maxQueueSize < (s.events ++ [e]).length then
        { s with
          events := (s.events ++ [e]).drop ((s.events ++ [e]).length - s.config.maxQueueSize)
          bufferSize := s.config.maxQueueSize
          overflowCount := s.overflowCount + 1 }
      else { s with events := s.events ++ [e], bufferSize := (s.events ++ [e]).length } := rfl

/-- The queue-management core appends the event, possibly dropping a
prefix of the old queue to honour `maxQueueSize`; the delivery-state
fields, configuration and flags are untouched, and `bufferInfo.size`
mirrors the queue length. -/
theorem addEventToQueue_effects (s : StoreState) (e : Event) :
    (∃ k, (addEventToQueue s e).events = s.events.drop k ++ [e]) ∧
    (addEventToQueue s e).bufferSize = (addEventToQueue s e).events.length ∧
    (addEventToQueue s e).config = s.config ∧
    (addEventToQueue s e).failedSubmissions = s.failedSubmissions ∧
    (addEventToQueue s e).lastFlushTime = s.lastFlushTime ∧
    (addEventToQueue s e).pendingFlush = s.pendingFlush ∧
    (addEventToQueue s e).hasConsent = s.hasConsent ∧
    (addEventToQueue s e).isEnabled = s.isEnabled := by
  rw [addEventToQueue_eq]
  split
  next h =>
    have hk : (s.events ++ [e]).length - s.config.maxQueueSize ≤ s.events.length := by
      have := h.1
      simp only [List.length_append, List.length_cons, List.length_nil]
      omega
    have hdrop :
        ((s.events ++ [e]).drop ((s.events ++ [e]).length - s.config.maxQueueSize)) =
          s.events.drop ((s.events ++ [e]).length - s.config.maxQueueSize) ++ [e] :=
      List.drop_append_of_le_length hk
    have hlen :
        (s.events.drop ((s.events ++ [e]).length - s.config.maxQueueSize) ++ [e]).length =
          s.config.maxQueueSize := by
      have := h.2
      simp only [List.length_append, List.length_cons, List.length_nil,
        List.length_drop] at this ⊢
      omega
    exact ⟨⟨(s.events ++ [e]).length - s.config.maxQueueSize, hdrop⟩,
      by rw [hdrop, hlen], rfl, rfl, rfl, rfl, rfl, rfl⟩
  next h =>
    exact ⟨⟨0, by simp⟩, by simp, rfl, rfl, rfl, rfl, rfl, rfl⟩

/-- `addEventToQueue` plus its auto-flush tail call: same queue effect,
and the delivery-state fields other than `pendingFlush` are
untouched. -/
theorem addEventToQueueF_effects (s : StoreState) (e : Event) :
    (∃ k, (addEventToQueueF s e).1.events = s.events.drop k ++ [e]) ∧
    (addEventToQueueF s e).1.bufferSize = (addEventToQueueF s e).1.events.length ∧
    (addEventToQueueF s e).1.config = s.config ∧
    (addEventToQueueF s e).1.failedSubmissions = s.failedSubmissions ∧
    (addEventToQueueF s e).1.lastFlushTime = s.lastFlushTime := by
  have base := addEventToQueue_effects s e
  unfold addEventToQueueF
  by_cases h : batchFlushDue (addEventToQueue s e)
  · rcases flushStart_fst (addEventToQueue s e) with hf | hf <;>
      simp only [h, if_pos, hf] <;>
      exact ⟨base.1, base.2.1, base.2.2.1, base.2.2.2.1, base.2.2.2.2.1⟩
  · simp only [h, if_neg, not_false_iff]
    exact ⟨base.1, base.2.1, base.2.2.1, base.2.2.2.1, base.2.2.2.2.1⟩

/-- Enrichment resolves the `type` field to the partial's own type, or
`"custom"` when the key is absent. -/
theorem enrichEvent_type (cfg : Config) (p : PartialEvent) (freshId now : Nat) :
    (enrichEvent cfg p freshId now).type = p.type.getD "custom" := by
  cases hp : p.type <;> simp [enrichEvent, spreadPartial, enrichBase, jsOrStr, hp]

/-- The environment-snapshot step never touches the `type` field. -/
theorem applyEnvData_type (cfg : Config) (e : Event) (d : Nat) :
    (applyEnvData cfg e d).type = e.type := by
  unfold applyEnvData
  split <;> rfl

/-- A full `trackEvent` call preserves the delivery-state counters and
either leaves the queue unchanged (gate or sampling rejection) or
appends exactly one enriched event, possibly dropping oldest events to
honour `maxQueueSize`; with no transformer configured the appended
event's type is the partial's type (default `"custom"`). -/
theorem trackEvent_effects (s : StoreState) (p : PartialEvent) (inp : ExtInput) :
    (trackEvent s p inp).1.failedSubmissions = s.failedSubmissions ∧
    (trackEvent s p inp).1.lastFlushTime = s.lastFlushTime ∧
    (s.bufferSize = s.events.length →
      (trackEvent s p inp).1.bufferSize = (trackEvent s p inp).1.events.length) ∧
    ((trackEvent s p inp).1.events = s.events ∨
      ∃ k ev, (trackEvent s p inp).1.events = s.events.drop k ++ [ev] ∧
        (s.config.eventTransformer = none → ev.type = p.type.getD "custom")) := by
  have leaf : ∀ (t : Event) (Q : Prop),
      (Q → t.type = p.type.getD "custom") →
      (addEventToQueueF s t).1.failedSubmissions = s.failedSubmissions ∧
      (addEventToQueueF s t).1.lastFlushTime = s.lastFlushTime ∧
      (s.bufferSize = s.events.length →
        (addEventToQueueF s t).1.bufferSize = (addEventToQueueF s t).1.events.length) ∧
      ((addEventToQueueF s t).1.events = s.events ∨
        ∃ k ev, (addEventToQueueF s t).1.events = s.events.drop k ++ [ev] ∧
          (Q → ev.type = p.type.getD "custom")) := by
    intro t Q ht
    obtain ⟨⟨k, hk⟩, hsize, _, hfail, hlast⟩ := addEventToQueueF_effects s t
    exact ⟨hfail, hlast, fun _ => hsize, Or.inr ⟨k, t, hk, ht⟩⟩
  have htype :
      (applyEnvData s.config (enrichEvent s.config p inp.freshId inp.now)
          inp.envData).type = p.type.getD "custom" := by
    rw [applyEnvData_type, enrichEvent_type]
  unfold trackEvent
  split
  · exact ⟨rfl, rfl, fun h => h, Or.inl rfl⟩
  · split
    · exact ⟨rfl, rfl, fun h => h, Or.inl rfl⟩
    · cases htr : s.config.eventTransformer with
      | none =>
          exact leaf _ _ (fun _ => htype)
      | some f =>
          dsimp only
          cases hft : f (applyEnvData s.config (enrichEvent s.config p inp.freshId inp.now)
              inp.envData) with
          | none => exact leaf _ _ (fun hnone => nomatch hnone)
          | some t => exact leaf _ _ (fun hnone => nomatch hnone)

/-! ## Claim C2 — flush mutual exclusion -/

/-- C2: a flush invoked while one is pending, while the queue is empty,
or while offline is a state-preserving no-op with no submission; the
resolution of a submission always lowers `pendingFlush`, success or
failure; and concretely, a second `flushEvents` while the first's
network call is outstanding performs no second submission. -/
theorem flush_mutual_exclusion :
    (∀ s : StoreState, s.pendingFlush = true ∨ s.events = [] ∨ s.isOnline = false →
      flushStart s = (s, none)) ∧
    (∀ (s : StoreState) (snap : List Event) (ok : Bool) (inp : ExtInput) (now : Nat),
      (flushResolve s snap ok inp now).pendingFlush = false) ∧
    demoFlush.2 = some demoAfter3.events ∧
    flushStart demoFlush.1 = (demoFlush.1, none) := by
  refine ⟨?_, fun s snap ok inp now => rfl, rfl, rfl⟩
  intro s h
  unfold flushStart
  rcases h with h | h | h
  · rw [if_pos (Or.inr h)]
  · rw [if_pos (Or.inl (by simp [h]))]
  · split
    · rfl
    · rw [if_pos (by simp [h])]

/-- C2 witness: the guarded no-op at a concrete mid-flight state. -/
theorem flush_mutual_exclusion_witness :
    flushStart tinyState = (tinyState, none) :=
  flush_mutual_exclusion.1 tinyState (Or.inl rfl)

/-! ## Claim C3 — failed flush recovery -/

/-- C3 counterexample: when the queue already sits at `maxQueueSize`
(here 1) and error tracking is on, the synthetic error event pushed by
the catch block evicts the oldest queued event — so a failed flush can
remove an event from the queue, contradicting the claim's "no event is
removed". -/
theorem flush_failure_eviction_cex :
    demoEvent 1 ∈ tinyState.events ∧
    demoEvent 1 ∉ (flushResolve tinyState [demoEvent 1] false (demoInput 7) 999).events := by
  constructor <;> decide

/-- C3 (amended): a failed flush increments `failedSubmissions` by
exactly one, always resets `pendingFlush` (and the total function
embodies that no exception escapes `flushEvents`), never records a
flush time, and leaves the queue unchanged except for at most one
appended synthetic event — of type `"error"` when no transformer is
configured — whose push may evict oldest events if it overflows
`maxQueueSize`. -/
theorem flush_failure_recovery (s : StoreState) (snap : List Event) (inp : ExtInput)
    (now : Nat) :
    (flushResolve s snap false inp now).failedSubmissions = s.failedSubmissions + 1 ∧
    (flushResolve s snap false inp now).pendingFlush = false ∧
    (flushResolve s snap false inp now).lastFlushTime = s.lastFlushTime ∧
    ((flushResolve s snap false inp now).events = s.events ∨
      ∃ k ev, (flushResolve s snap false inp now).events = s.events.drop k ++ [ev] ∧
        (s.config.eventTransformer = none → ev.type = "error")) := by
  have heq : flushResolve s snap false inp now =
      { (if ({ s with failedSubmissions := s.failedSubmissions + 1 } : StoreState).config.trackErrors
          then (trackEvent { s with failedSubmissions := s.failedSubmissions + 1 }
                  (flushErrorPartial inp.errMsg) inp).1
          else { s with failedSubmissions := s.failedSubmissions + 1 }) with
        pendingFlush := false } := rfl
  rw [heq]
  by_cases ht :
      ({ s with failedSubmissions := s.failedSubmissions + 1 } : StoreState).config.trackErrors
  · rw [if_pos ht]
    obtain ⟨hfail, hlast, _, hev⟩ :=
      trackEvent_effects { s with failedSubmissions := s.failedSubmissions + 1 }
        (flushErrorPartial inp.errMsg) inp
    exact ⟨hfail, rfl, hlast, hev⟩
  · rw [if_neg ht]
    exact ⟨rfl, rfl, rfl, Or.inl rfl⟩

/-- C3 witness: the amended failure effects at the concrete mid-flight
state. -/
theorem flush_failure_recovery_witness :
    (flushResolve tinyState [demoEvent 1] false (demoInput 7) 999).failedSubmissions =
      tinyState.failedSubmissions + 1 ∧
    (flushResolve tinyState [demoEvent 1] false (demoInput 7) 999).pendingFlush = false :=
  ⟨(flush_failure_recovery tinyState [demoEvent 1] (demoInput 7) 999).1,
   (flush_failure_recovery tinyState [demoEvent 1] (demoInput 7) 999).2.1⟩

/-! ## Claim C10 — `bufferInfo.size` mirrors the queue length -/

/-- C10: each store action preserves the invariant that
`bufferInfo.size` equals the length of the `events` array. -/
theorem size_mirrors_queue_invariant (s : StoreState) (h : sizeInv s) :
    (∀ opts online, sizeInv (initializeStore s opts online)) ∧
    (∀ p inp, sizeInv (trackEvent s p inp).1) ∧
    (∀ e, sizeInv (addEventToQueue s e)) ∧
    sizeInv (flushStart s).1 ∧
    (∀ snap ok inp now, sizeInv (flushResolve s snap ok inp now)) ∧
    sizeInv (clearEvents s) ∧
    (∀ f, sizeInv (filterEvents s f)) ∧
    (∀ b, sizeInv (setConsent s b)) ∧
    sizeInv (saveEventsToStorage s) := by
  refine ⟨?_, ?_, ?_, ?_, ?_, rfl, fun f => rfl, ?_, ?_⟩
  · intro opts online
    unfold initializeStore sizeInv
    cases hse : s.storageEvents
    · exact h
    · rfl
  · exact fun p inp => (trackEvent_effects s p inp).2.2.1 h
  · exact fun e => (addEventToQueue_effects s e).2.1
  · rcases flushStart_fst s with hf | hf <;> rw [hf] <;> exact h
  · intro snap ok inp now
    cases ok
    · have heq : flushResolve s snap false inp now =
          { (if ({ s with failedSubmissions := s.failedSubmissions + 1 } :
                StoreState).config.trackErrors
              then (trackEvent { s with failedSubmissions := s.failedSubmissions + 1 }
                      (flushErrorPartial inp.errMsg) inp).1
              else { s with failedSubmissions := s.failedSubmissions + 1 }) with
            pendingFlush := false } := rfl
      rw [sizeInv, heq]
      by_cases ht :
          ({ s with failedSubmissions := s.failedSubmissions + 1 } :
            StoreState).config.trackErrors
      · rw [if_pos ht]
        exact (trackEvent_effects { s with failedSubmissions := s.failedSubmissions + 1 }
          (flushErrorPartial inp.errMsg) inp).2.2.1 h
      · rw [if_neg ht]
        exact h
    · exact rfl
  · intro b
    cases b
    · simp [setConsent, clearEvents, sizeInv]
    · simp [setConsent, clearEvents, sizeInv]
      exact h
  · unfold saveEventsToStorage
    split <;> exact h

/-- C10 witness: the invariant after a concrete push on the fresh
store. -/
theorem size_mirrors_queue_invariant_witness :
    sizeInv (addEventToQueue (initialState none false) (demoEvent 1)) :=
  (size_mirrors_queue_invariant (initialState none false) rfl).2.2.1 (demoEvent 1)

/-! ## Claim C1 — flush reconciliation by id -/

/-- C1: a successful flush removes from the live queue exactly the
events whose `id` occurs in the snapshot taken at flush start (an event
survives iff no snapshot member shares its id), records `lastFlushTime`
and clears the persisted snapshot; concretely, pushing three events,
starting a flush, pushing a fourth mid-flight and resolving
successfully leaves exactly the fourth event. -/
theorem flush_success_reconciliation :
    (∀ (s : StoreState) (snap : List Event) (inp : ExtInput) (now : Nat) (e : Event),
      (e ∈ (flushResolve s snap true inp now).events ↔
        e ∈ s.events ∧ ∀ se ∈ snap, se.id ≠ e.id) ∧
      (flushResolve s snap true inp now).lastFlushTime = some now ∧
      (flushResolve s snap true inp now).storageEvents = none) ∧
    demoFlush.2 = some [demoEvent 1, demoEvent 2, demoEvent 3] ∧
    demoAfter4.events = [demoEvent 1, demoEvent 2, demoEvent 3, demoEvent 4] ∧
    demoFinal.events = [demoEvent 4] ∧
    demoFinal.lastFlushTime = some 999 := by
  refine ⟨?_, rfl, rfl, rfl, rfl⟩
  intro s snap inp now e
  refine ⟨?_, rfl, rfl⟩
  show e ∈ (s.events.filter fun e => !(snap.any fun se => se.id == e.id)) ↔ _
  rw [List.mem_filter]
  simp [List.any_eq_true]

/-! ## Claim C4 — `DiscardOldest` eviction

The circular buffer is verified against a list-level model via the
refinement relation `cbRep`; the engine-level queue is verified
directly on `addEventToQueue`. -/

/-- Adding the same offset to two residues below the modulus is
injective. -/
theorem add_mod_inj {c a i j : Nat} (hi : i < c) (hj : j < c)
    (he : (a + i) % c = (a + j) % c) : i = j := by
  have h : i % c = j % c := Nat.ModEq.add_left_cancel' a he
  rwa [Nat.mod_eq_of_lt hi, Nat.mod_eq_of_lt hj] at h

/-- A freshly constructed buffer represents the empty list. -/
theorem cbRep_mk (T : Type) (c : Nat) (strat : OverflowStrategy) (hc : 1 ≤ c) :
    cbRep (mkCB T c strat) [] := by
  refine ⟨by simp [mkCB], hc, rfl, Nat.zero_le _, by simp [mkCB], ?_⟩
  intro i hi
  exact absurd hi (Nat.not_lt_zero i)

/-- The collection loop returns exactly the represented list when every
visited slot holds the corresponding element. -/
theorem getItemsAux_rep {T : Type} (buf : List (Option T)) (c : Nat) (hc : 0 < c) :
    ∀ (l : List T) (start : Nat), start < c →
      (∀ i : Nat, i < l.length → buf.getD ((start + i) % c) none = l[i]?) →
      getItemsAux buf c start l.length = l := by
  intro l
  induction l with
  | nil => intro start _ _; rfl
  | cons a l1 ih =>
      intro start hs hcont
      have h0 : buf.getD start none = some a := by
        have h := hcont 0 (Nat.succ_pos _)
        rw [Nat.add_zero, Nat.mod_eq_of_lt hs] at h
        simpa using h
      show getItemsAux buf c start (l1.length + 1) = a :: l1
      rw [getItemsAux, h0]
      refine congrArg (a :: ·) (ih ((start + 1) % c) (Nat.mod_lt _ hc) ?_)
      intro i hi
      rw [Nat.mod_add_mod, show start + 1 + i = start + (i + 1) from by omega]
      have h := hcont (i + 1) (by simpa using Nat.succ_lt_succ hi)
      rw [h]
      simp

/-- `getItems()` returns the represented list, oldest first. -/
theorem getItemsCB_rep {T : Type} {cb : CBState T} {l : List T} (hrep : cbRep cb l) :
    getItemsCB cb = l := by
  obtain ⟨hbl, hh, hsz, _, _, hcont⟩ := hrep
  have hc : 0 < cb.capacity := Nat.lt_of_le_of_lt (Nat.zero_le _) hh
  unfold getItemsCB
  by_cases h0 : cb.size = 0
  · rw [if_pos h0]
    have hl : l.length = 0 := by omega
    exact (List.length_eq_zero.mp hl).symm
  · rw [if_neg h0, hsz]
    exact getItemsAux_rep cb.buffer cb.capacity hc l cb.head hh hcont

/-- One `push` under `discard-oldest` refines the list-level
`modelPushDO` step. -/
theorem pushCB_rep {T : Type} {cb : CBState T} {l : List T} (hrep : cbRep cb l)
    (hs : cb.overflowStrategy = .discardOldest) (x : T) :
    cbRep (pushCB cb x).1 (modelPushDO cb.capacity l x) := by
  obtain ⟨hbl, hh, hsz, hsc, ht, hcont⟩ := hrep
  have hc : 0 < cb.capacity := Nat.lt_of_le_of_lt (Nat.zero_le _) hh
  by_cases hfull : cb.size = cb.capacity
  · -- full buffer: dequeue the oldest slot, insert at tail = head
    have hlc : l.length = cb.capacity := by omega
    have htail : cb.tail = cb.head := by
      rw [ht, hfull, Nat.add_mod_right, Nat.mod_eq_of_lt hh]
    have hne : ¬ cb.size = 0 := by omega
    have hred : (pushCB cb x).1 = insertAtTail (dequeueCB cb).1 x := by
      unfold pushCB
      rw [if_pos hfull, hs]
    have hdq : (dequeueCB cb).1 =
        { cb with buffer := cb.buffer.set cb.head none
                  head := (cb.head + 1) % cb.capacity
                  size := cb.size - 1 } := by
      unfold dequeueCB
      rw [if_neg hne]
    have hmodel : modelPushDO cb.capacity l x = l.drop 1 ++ [x] := by
      unfold modelPushDO
      rw [if_pos hlc]
    rw [hred, hdq, hmodel]
    unfold insertAtTail
    dsimp only
    rw [htail, List.set_set]
    have hlen' : (l.drop 1 ++ [x]).length = cb.capacity := by
      simp only [List.length_append, List.length_drop, List.length_cons, List.length_nil]
      omega
    refine ⟨by simp [hbl], Nat.mod_lt _ hc, ?_, ?_, ?_, ?_⟩
    · show cb.size - 1 + 1 = (l.drop 1 ++ [x]).length
      rw [hlen']
      omega
    · show cb.size - 1 + 1 ≤ cb.capacity
      omega
    · show (cb.head + 1) % cb.capacity =
        ((cb.head + 1) % cb.capacity + (cb.size - 1 + 1)) % cb.capacity
      have hsize : cb.size - 1 + 1 = cb.capacity := by omega
      rw [hsize, Nat.add_mod_right, Nat.mod_mod]
    · intro i hi
      rw [hlen'] at hi
      rw [Nat.mod_add_mod, show cb.head + 1 + i = cb.head + (1 + i) from by omega]
      by_cases hlast : 1 + i = cb.capacity
      · have hpos : (cb.head + (1 + i)) % cb.capacity = cb.head := by
          rw [hlast, Nat.add_mod_right, Nat.mod_eq_of_lt hh]
        rw [hpos]
        rw [List.getD_eq_getElem?_getD, List.getElem?_set_self (by omega), Option.getD_some]
        have hi' : i = (l.drop 1).length := by
          simp only [List.length_drop]
          omega
        rw [hi']
        exact (List.getElem?_concat_length (l.drop 1) x).symm
      · have hne2 : cb.head ≠ (cb.head + (1 + i)) % cb.capacity := by
          intro hcon
          have h0 : (cb.head + 0) % cb.capacity = (cb.head + (1 + i)) % cb.capacity := by
            rwa [Nat.add_zero, Nat.mod_eq_of_lt hh]
          have := add_mod_inj hc (by omega) h0
          omega
        rw [List.getD_eq_getElem?_getD, List.getElem?_set_ne hne2,
          ← List.getD_eq_getElem?_getD]
        have hcnt := hcont (1 + i) (by omega)
        rw [hcnt]
        rw [List.getElem?_append_left (by simp only [List.length_drop]; omega),
          List.getElem?_drop]

  · -- not full: plain insert at the tail
    have hmodel : modelPushDO cb.capacity l x = l ++ [x] := by
      unfold modelPushDO
      rw [if_neg (by omega)]
    have hred : (pushCB cb x).1 = insertAtTail cb x := by
      unfold pushCB
      rw [if_neg hfull]
    rw [hred, hmodel]
    unfold insertAtTail
    have htlt : cb.tail < cb.capacity := by
      rw [ht]
      exact Nat.mod_lt _ hc
    refine ⟨by simp [hbl], hh, ?_, ?_, ?_, ?_⟩
    · show cb.size + 1 = (l ++ [x]).length
      simp [hsz]
    · show cb.size + 1 ≤ cb.capacity
      omega
    · show (cb.tail + 1) % cb.capacity = (cb.head + (cb.size + 1)) % cb.capacity
      rw [ht, Nat.mod_add_mod, Nat.add_assoc]
    · intro i hi
      simp only [List.length_append, List.length_cons, List.length_nil] at hi
      by_cases hilt : i < l.length
      · have hne2 : cb.tail ≠ (cb.head + i) % cb.capacity := by
          intro hcon
          rw [ht] at hcon
          have := add_mod_inj (by omega) (by omega) hcon
          omega
        rw [List.getD_eq_getElem?_getD, List.getElem?_set_ne hne2,
          ← List.getD_eq_getElem?_getD, hcont i hilt,
          List.getElem?_append_left hilt]
      · have hieq : i = l.length := by omega
        have hpos : (cb.head + i) % cb.capacity = cb.tail := by
          rw [ht, hieq, hsz]
        rw [List.getD_eq_getElem?_getD, hpos, List.getElem?_set_self (by omega),
          Option.getD_some, hieq]
        exact (List.getElem?_concat_length l x).symm

/-- A `discard-oldest` push never touches the capacity, strategy or
overflow counter. -/
theorem pushCB_const {T : Type} (cb : CBState T) (x : T)
    (hs : cb.overflowStrategy = .discardOldest) :
    (pushCB cb x).1.capacity = cb.capacity ∧
    (pushCB cb x).1.overflowStrategy = cb.overflowStrategy ∧
    (pushCB cb x).1.overflowCount = cb.overflowCount := by
  have hdq : (dequeueCB cb).1.capacity = cb.capacity ∧
      (dequeueCB cb).1.overflowStrategy = cb.overflowStrategy ∧
      (dequeueCB cb).1.overflowCount = cb.overflowCount := by
    unfold dequeueCB
    split
    · exact ⟨rfl, rfl, rfl⟩
    · exact ⟨rfl, rfl, rfl⟩
  unfold pushCB
  split
  · rw [hs]
    exact ⟨hdq.1, hdq.2.1.trans hs, hdq.2.2⟩
  · exact ⟨rfl, rfl, rfl⟩

/-- Pushing a whole list under `discard-oldest` refines the list-level
fold of `modelPushDO`, with the overflow counter untouched. -/
theorem pushListCB_rep {T : Type} :
    ∀ (xs : List T) (cb : CBState T) (l : List T), cbRep cb l →
      cb.overflowStrategy = .discardOldest →
      cbRep (pushListCB cb xs) (xs.foldl (modelPushDO cb.capacity) l) ∧
      (pushListCB cb xs).capacity = cb.capacity ∧
      (pushListCB cb xs).overflowCount = cb.overflowCount := by
  intro xs
  induction xs with
  | nil => exact fun cb l hrep _ => ⟨hrep, rfl, rfl⟩
  | cons x xs ih =>
      intro cb l hrep hs
      have hconst := pushCB_const cb x hs
      have hrep1 := pushCB_rep hrep hs x
      have hstep := ih (pushCB cb x).1 (modelPushDO cb.capacity l x) hrep1
        (hconst.2.1.trans hs)
      have hfold : pushListCB cb (x :: xs) = pushListCB (pushCB cb x).1 xs := rfl
      rw [hfold]
      refine ⟨?_, hstep.2.1.trans hconst.1, hstep.2.2.trans hconst.2.2⟩
      have hcap : (pushCB cb x).1.capacity = cb.capacity := hconst.1
      rw [hcap] at hstep
      exact hstep.1

/-- Folding the list-level `discard-oldest` step from the empty list
keeps exactly the newest `c` items, in order. -/
theorem foldl_modelPushDO {T : Type} (c : Nat) (hc : 1 ≤ c) (xs : List T) :
    xs.foldl (modelPushDO c) [] = xs.drop (xs.length - c) := by
  induction xs using List.reverseRecOn with
  | nil => simp
  | append_singleton ys x ih =>
      rw [List.foldl_append, List.foldl_cons, List.foldl_nil, ih]
      by_cases hlen : ys.length < c
      · have h1 : ys.length - c = 0 := by omega
        have h2 : (ys ++ [x]).length - c = 0 := by
          simp only [List.length_append, List.length_cons, List.length_nil]
          omega
        rw [h1, List.drop_zero, h2, List.drop_zero]
        unfold modelPushDO
        rw [if_neg (by omega)]
      · have hdlen : (ys.drop (ys.length - c)).length = c := by
          simp only [List.length_drop]
          omega
        unfold modelPushDO
        rw [if_pos hdlen, List.drop_drop]
        have h3 : (ys ++ [x]).length - c = ys.length - c + 1 := by
          simp only [List.length_append, List.length_cons, List.length_nil]
          omega
        rw [h3, List.drop_append_of_le_length (by omega)]

/-- One engine-level push with `maxQueueSize = c ≥ 1`, starting below
the cap: append, keep the newest `c`, count one overflow per trim. -/
theorem addEventToQueue_step (s : StoreState) (e : Event) (c : Nat) (hc : 1 ≤ c)
    (hm : s.config.maxQueueSize = c) (hl : s.events.length ≤ c) :
    (addEventToQueue s e).events = (s.events ++ [e]).drop (s.events.length + 1 - c) ∧
    (addEventToQueue s e).events.length ≤ c ∧
    (addEventToQueue s e).overflowCount = s.overflowCount + (s.events.length + 1 - c) ∧
    (addEventToQueue s e).config = s.config := by
  rw [addEventToQueue_eq]
  by_cases hcond : s.config.maxQueueSize ≠ 0 ∧ s.config.maxQueueSize < (s.events ++ [e]).length
  · have hLc : s.events.length = c := by
      have h2 := hcond.2
      rw [hm] at h2
      simp only [List.length_append, List.length_cons, List.length_nil] at h2
      omega
    rw [if_pos hcond]
    refine ⟨?_, ?_, ?_, rfl⟩
    · show (s.events ++ [e]).drop ((s.events ++ [e]).length - s.config.maxQueueSize) =
        (s.events ++ [e]).drop (s.events.length + 1 - c)
      rw [hm]
      simp only [List.length_append, List.length_cons, List.length_nil]
    · show ((s.events ++ [e]).drop ((s.events ++ [e]).length - s.config.maxQueueSize)).length ≤ c
      rw [hm]
      simp only [List.length_drop, List.length_append, List.length_cons, List.length_nil]
      omega
    · show s.overflowCount + 1 = s.overflowCount + (s.events.length + 1 - c)
      omega
  · have hsmall : s.events.length < c := by
      rcases not_and_or.mp hcond with h | h
      · exact absurd (by omega : ¬ s.config.maxQueueSize = 0) h
      · rw [hm] at h
        simp only [List.length_append, List.length_cons, List.length_nil] at h
        omega
    rw [if_neg hcond]
    refine ⟨?_, ?_, ?_, rfl⟩
    · show s.events ++ [e] = (s.events ++ [e]).drop (s.events.length + 1 - c)
      rw [show s.events.length + 1 - c = 0 from by omega, List.drop_zero]
    · show (s.events ++ [e]).length ≤ c
      simp only [List.length_append, List.length_cons, List.length_nil]
      omega
    · show s.overflowCount = s.overflowCount + (s.events.length + 1 - c)
      omega

/-- Folding engine-level pushes: the queue holds the newest `c` of the
concatenation and the overflow counter counts exactly the trims. -/
theorem engine_fold (c : Nat) (hc : 1 ≤ c) :
    ∀ (xs : List Event) (s : StoreState),
      s.config.maxQueueSize = c → s.events.length ≤ c →
      (List.foldl addEventToQueue s xs).events =
        (s.events ++ xs).drop (s.events.length + xs.length - c) ∧
      (List.foldl addEventToQueue s xs).overflowCount =
        s.overflowCount + (s.events.length + xs.length - c) := by
  intro xs
  induction xs with
  | nil =>
      intro s hm hl
      constructor <;> simp [Nat.sub_eq_zero_of_le hl]
  | cons x xs ih =>
      intro s hm hl
      obtain ⟨hev, hlen, hover, hcfg⟩ := addEventToQueue_step s x c hc hm hl
      have hm1 : (addEventToQueue s x).config.maxQueueSize = c := by rw [hcfg, hm]
      obtain ⟨ihev, ihover⟩ := ih (addEventToQueue s x) hm1 hlen
      have hlen1 : (addEventToQueue s x).events.length =
          s.events.length + 1 - (s.events.length + 1 - c) := by
        rw [hev]
        simp only [List.length_drop, List.length_append, List.length_cons, List.length_nil]
      rw [List.foldl_cons]
      constructor
      · rw [ihev, hev]
        have hle : s.events.length + 1 - c ≤ (s.events ++ [x]).length := by
          simp only [List.length_append, List.length_cons, List.length_nil]
          omega
        have hcomp : ((s.events ++ [x]).drop (s.events.length + 1 - c) ++ xs) =
            (s.events ++ [x] ++ xs).drop (s.events.length + 1 - c) := by
          rw [List.drop_append_of_le_length hle]
        rw [hcomp, List.drop_drop]
        rw [show s.events ++ [x] ++ xs = s.events ++ x :: xs from by simp]
        have harith : s.events.length + 1 - c +
            ((List.drop (s.events.length + 1 - c) (s.events ++ [x])).length +
              xs.length - c) =
            s.events.length + (x :: xs).length - c := by
          simp only [List.length_drop, List.length_append, List.length_cons,
            List.length_nil]
          omega
        rw [harith]
      · rw [ihover, hover, hlen1]
        simp only [List.length_cons]
        omega

/-- C4 counterexample: pushing four events through the engine-level
queue with `maxQueueSize = 3` keeps the newest three, but
`bufferInfo.overflowCount` becomes 1 — the engine's oldest-discarding
trim does increment the overflow counter, contradicting "it stays 0
when only DiscardOldest evictions occurred". -/
theorem engine_trim_overflow_count_cex :
    (List.foldl addEventToQueue (mkEngineState 3)
      [demoEvent 1, demoEvent 2, demoEvent 3, demoEvent 4]).events =
        [demoEvent 2, demoEvent 3, demoEvent 4] ∧
    (List.foldl addEventToQueue (mkEngineState 3)
      [demoEvent 1, demoEvent 2, demoEvent 3, demoEvent 4]).overflowCount = 1 ∧
    (List.foldl addEventToQueue (mkEngineState 3)
      [demoEvent 1, demoEvent 2, demoEvent 3, demoEvent 4]).overflowCount ≠ 0 := by
  refine ⟨by decide, by decide, by decide⟩

/-- C4 (amended): under `DiscardOldest` with capacity `c ≥ 1`, after
pushing any `xs` the standalone buffer's snapshot holds exactly the
newest `c` items in push order with its overflow counter still 0; the
engine-level queue trimmed to `maxQueueSize = c` also keeps exactly the
newest `c` in order, but its overflow counter counts one per trim
(`xs.length - c` for `xs.length > c`) instead of staying 0. -/
theorem discard_oldest_keeps_newest (c : Nat) (hc : 1 ≤ c) :
    (∀ (T : Type) (xs : List T),
      getItemsCB (pushListCB (mkCB T c .discardOldest) xs) = xs.drop (xs.length - c) ∧
      (pushListCB (mkCB T c .discardOldest) xs).overflowCount = 0) ∧
    (∀ xs : List Event,
      (List.foldl addEventToQueue (mkEngineState c) xs).events =
        xs.drop (xs.length - c) ∧
      (List.foldl addEventToQueue (mkEngineState c) xs).overflowCount = xs.length - c) := by
  constructor
  · intro T xs
    obtain ⟨hrep, hcap, hover⟩ :=
      pushListCB_rep xs (mkCB T c .discardOldest) [] (cbRep_mk T c _ hc) rfl
    refine ⟨?_, hover⟩
    rw [getItemsCB_rep hrep]
    exact foldl_modelPushDO c hc xs
  · intro xs
    obtain ⟨hev, hover⟩ := engine_fold c hc xs (mkEngineState c) rfl (by simp [mkEngineState])
    constructor
    · rw [hev]
      simp [mkEngineState]
    · rw [hover]
      simp [mkEngineState]

/-- C4 witness: capacity 3, five pushes — the snapshot is the last
three in order and the buffer counter stays 0. -/
theorem discard_oldest_keeps_newest_witness :
    getItemsCB (pushListCB (mkCB Nat 3 .discardOldest) [1, 2, 3, 4, 5]) = [3, 4, 5] ∧
    (pushListCB (mkCB Nat 3 .discardOldest) [1, 2, 3, 4, 5]).overflowCount = 0 :=
  (discard_oldest_keeps_newest 3 (by norm_num)).1 Nat [1, 2, 3, 4, 5]

end GameAnalytics
